import Mathlib

/-!
Shallow embedding of the analytical pipeline of `src/app6.py` (an employee
evaluation dashboard).  The pipeline normalizes an uploaded table and derives
metrics: growth percentages, top-decile selection, rank/grade ordered
aggregations, tenure bucketing, shock-drop detection, talent density and
department dispersion.  Floating-point cells are modelled symbolically: a
finite value is an exact rational, and the IEEE special values NaN and
plus/minus infinity are explicit constructors, so all the divisions,
replacements and fill operations of the source are exact.
-/

namespace App6

/-- Symbolic model of a pandas float64 cell value: a finite rational or one of
the IEEE special values produced by the pipeline (NaN from 0/0 or a
missing/unparseable cell, plus or minus infinity from division by zero). -/
inductive FV where
  | fin (q : ℚ)
  | nan
  | inf
  | neginf
deriving DecidableEq, Repr

/-- True exactly on finite values. -/
def FV.isFinite : FV → Bool
  | .fin _ => true
  | _ => false

/-- IEEE division of two finite values, as numpy performs elementwise on
float64 columns: x/0 is plus or minus infinity for x nonzero and NaN for
x = 0; otherwise the exact rational quotient. -/
def fvDiv (a b : ℚ) : FV :=
  if b = 0 then
    if a = 0 then .nan else if 0 < a then .inf else .neginf
  else .fin (a / b)

/-- Multiplication of a float value by the positive literal 100, as in
`... / prior * 100`: finite values scale, NaN and the infinities are kept. -/
def fvMul100 : FV → FV
  | .fin q => .fin (q * 100)
  | .nan => .nan
  | .inf => .inf
  | .neginf => .neginf

/-- Model of `.replace([np.inf, -np.inf], 0)` (src/app6.py line 157): both
infinities become 0; every other value, including NaN, is left unchanged. -/
def replaceInfZero : FV → FV
  | .inf => .fin 0
  | .neginf => .fin 0
  | x => x

/-- Growth percent of one row (src/app6.py lines 154 and 157):
`(총점 - 전년도총점) / 전년도총점 * 100` followed by replacing the two
infinities with 0.  Inputs are the normalized (finite) score columns. -/
def growthPercent (total prior : ℚ) : FV :=
  replaceInfZero (fvMul100 (fvDiv (total - prior) prior))

/-! ## Normalization of raw cells (src/app6.py lines 23-26)

A raw spreadsheet cell, as `pd.read_excel` delivers it, is blank (NaN), a
finite number (spreadsheet numerics are finite float64), or text.  The source
then runs `pd.to_numeric(col, errors=..coerce..).astype(float).fillna(0.0)`
over each target column. -/

/-- A raw cell of the uploaded sheet. -/
inductive Cell where
  | blank
  | num (q : ℚ)
  | text (s : String)
deriving DecidableEq, Repr

/-- Numeric value of a list of decimal digit characters. -/
def digitsVal (cs : List Char) : Nat :=
  cs.foldl (fun a c => a * 10 + (c.toNat - 48)) 0

/-- Parse an unsigned decimal literal (digits with an optional single decimal
point, at least one digit present) into an exact rational. -/
def parseUnsignedDec (cs : List Char) : Option ℚ :=
  match cs.splitOn '.' with
  | [w] =>
    if w ≠ [] ∧ w.all Char.isDigit then some (digitsVal w) else none
  | [w, f] =>
    if (w ≠ [] ∨ f ≠ []) ∧ w.all Char.isDigit ∧ f.all Char.isDigit then
      some ((digitsVal w : ℚ) + (digitsVal f : ℚ) / (10 ^ f.length))
    else none
  | _ => none

/-- Model of the numeric string recognition inside `pd.to_numeric`: an
optional sign, then either a decimal literal or one of the case-insensitive
special literals inf, infinity (parsed to the infinities) and nan.  Strings
outside this fragment are unparseable (`none`). -/
def parseNumericText (s : String) : Option FV :=
  let core : Bool → List Char → Option FV := fun neg cs =>
    let low := cs.map Char.toLower
    if low = "inf".data ∨ low = "infinity".data then
      some (if neg then .neginf else .inf)
    else if low = "nan".data then some .nan
    else (parseUnsignedDec cs).map fun q => .fin (if neg then -q else q)
  match s.data with
  | '-' :: rest => core true rest
  | '+' :: rest => core false rest
  | cs => core false cs

/-- Model of `pd.to_numeric(x, errors=..coerce..)` on one cell: blanks are
NaN, numbers pass through, text parses or coerces to NaN. -/
def toNumericCoerce : Cell → FV
  | .blank => .nan
  | .num q => .fin q
  | .text s => (parseNumericText s).getD .nan

/-- Model of `.fillna(0.0)`: NaN becomes 0.0, all other values unchanged. -/
def fillna0 : FV → FV
  | .nan => .fin 0
  | x => x

/-- Full normalization of one cell of a numeric target column
(src/app6.py line 26). -/
def normalizeCell (c : Cell) : FV :=
  fillna0 (toNumericCoerce c)

/-! ## The normalized table -/

/-- One row of the normalized table.  String fields are kept as plain strings
(rank and grade ordering is imposed by the fixed enumerations below, exactly
as the `pd.Categorical` conversion does in src/app6.py lines 44-47); the five
numeric target columns are finite rationals, the generic outcome of
normalization. -/
structure Row where
  empId : String
  name : String
  dept : String
  rank : String
  grade : String
  perf : ℚ
  comp : ℚ
  total : ℚ
  tenure : ℚ
  prior : ℚ
deriving DecidableEq, Repr

/-- The fixed rank enumeration (src/app6.py line 40), highest first. -/
def rank_order : List String := ["부장", "차장", "과장", "대리", "사원"]

/-- The fixed grade enumeration (src/app6.py line 41). -/
def grade_order : List String := ["S", "A", "B", "C", "D"]

/-- Mean of a list of rationals (pandas `.mean()` on a nonempty group). -/
def qmean (l : List ℚ) : ℚ := l.sum / l.length

/-- Entry of one group of an ordered grouped mean: the mean total score of
the rows whose (optional) group key is `k`, or nothing when the group is
unobserved. -/
def groupEntry (key : Row → Option String) (rows : List Row)
    (k : String) : Option (String × ℚ) :=
  let g := rows.filter fun r => key r == some k
  if g.isEmpty then none else some (k, qmean (g.map Row.total))

/-- Ordered grouped mean of the total score: for each key of the fixed
enumeration `keys`, in enumeration order, the mean total score of the rows
whose (optional) group key equals it; keys with no rows are dropped.  This is
the common shape of `groupby(<categorical>, observed=True)[총점].mean()`:
pandas emits the observed groups in category order, and rows whose key falls
outside the categories carry NaN and are dropped. -/
def orderedGroupMean (keys : List String) (key : Row → Option String)
    (rows : List Row) : List (String × ℚ) :=
  keys.filterMap (groupEntry key rows)

/-- Mean total score by rank in rank enumeration order
(src/app6.py line 61). -/
def rankAvg (rows : List Row) : List (String × ℚ) :=
  orderedGroupMean rank_order (fun r => some r.rank) rows

/-- Grade counts in grade enumeration order: `value_counts()` over the grade
categorical lists every category, and `.sort_index()` puts the categorical
index in enumeration order (src/app6.py line 137).  Grades outside the
enumeration are NaN in the categorical and not counted. -/
def gradeCounts (rows : List Row) : List (String × Nat) :=
  grade_order.map fun g => (g, (rows.filter fun r => r.grade == g).length)

/-! ## Top-decile selection (src/app6.py lines 143-146) -/

/-- The q-th quantile with linear interpolation between order statistics,
pandas default interpolation for `Series.quantile`.  The empty case never
arises in the app (the quantile is taken over the full 총점 column of an
uploaded table); pandas would return NaN there, we return 0. -/
def quantileLinear (l : List ℚ) (q : ℚ) : ℚ :=
  let s := l.mergeSort fun a b => decide (a ≤ b)
  let n := s.length
  if n = 0 then 0
  else
    let pos : ℚ := q * ((n : ℚ) - 1)
    let i : Nat := pos.floor.toNat
    let frac : ℚ := pos - (i : ℚ)
    let vi := s.getD i 0
    let vi1 := s.getD (Nat.min (i + 1) (n - 1)) 0
    vi + frac * (vi1 - vi)

/-- The 90th percentile of the total score column, `df[총점].quantile(0.9)`
(src/app6.py line 143). -/
def starThreshold (rows : List Row) : ℚ :=
  quantileLinear (rows.map Row.total) (9 / 10)

/-- Core Talent selection (src/app6.py lines 144 and 146): rows whose total
score is at or above the 90th-percentile threshold, sorted descending by
total score. -/
def stars (rows : List Row) : List Row :=
  (rows.filter fun r => decide (starThreshold rows ≤ r.total)).mergeSort
    fun a b => decide (b.total ≤ a.total)

/-! ## Year-over-year deltas and shock drops (src/app6.py lines 211-212) -/

/-- Score delta of one row: `총점 - 전년도총점`. -/
def scoreDelta (r : Row) : ℚ := r.total - r.prior

/-- Shock-drop list: rows whose delta is at most -10, sorted ascending by
delta (`df[df[점수차이] <= -10].sort_values(by=점수차이)`). -/
def warningDrop (rows : List Row) : List Row :=
  (rows.filter fun r => decide (scoreDelta r ≤ -10)).mergeSort
    fun a b => decide (scoreDelta a ≤ scoreDelta b)

/-! ## Tenure bucketing (src/app6.py lines 261-265) -/

/-- The fixed bucket labels (src/app6.py line 262). -/
def tenureLabels : List String :=
  ["1-2년(신입)", "3-5년(주니어)", "6-10년(시니어)", "11-20년(베테랑)", "20년 이상"]

/-- Model of `pd.cut(근무기간, bins=[0,2,5,10,20,100], labels=...)` with the
default right-closed intervals: tenure t is labelled by the half-open
interval (lo, hi] containing it, and values outside (0, 100] get no bucket
(NaN category). -/
def tenureBucket (t : ℚ) : Option String :=
  if 0 < t ∧ t ≤ 2 then some "1-2년(신입)"
  else if 2 < t ∧ t ≤ 5 then some "3-5년(주니어)"
  else if 5 < t ∧ t ≤ 10 then some "6-10년(시니어)"
  else if 10 < t ∧ t ≤ 20 then some "11-20년(베테랑)"
  else if 20 < t ∧ t ≤ 100 then some "20년 이상"
  else none

/-- Mean total score per tenure bucket, in bucket order
(`groupby(근속구간, observed=True)[총점].mean()`, src/app6.py line 265). -/
def tenurePerf (rows : List Row) : List (String × ℚ) :=
  orderedGroupMean tenureLabels (fun r => tenureBucket r.tenure) rows

/-! ## Talent density (src/app6.py lines 245-248) -/

/-- Whether a row counts as a high performer (grade S or A). -/
def isStarGrade (r : Row) : Bool := r.grade == "S" || r.grade == "A"

/-- The departments appearing in the table (index of `groupby(부서).size()`;
each department once). -/
def deptList (rows : List Row) : List String := (rows.map Row.dept).dedup

/-- Density value of one department: `dept_stars / dept_total * 100` with
series alignment — a department with no S/A rows is absent from the
`dept_stars` index, so the division yields NaN there and `fillna(0)` turns it
into 0; otherwise the exact ratio times 100. -/
def deptDensity (rows : List Row) (d : String) : ℚ :=
  let n := (rows.filter fun r => r.dept == d).length
  let s := (rows.filter fun r => r.dept == d && isStarGrade r).length
  if s = 0 then 0 else (s : ℚ) / (n : ℚ) * 100

/-- Talent density table: one entry per department, sorted descending by the
percentage (src/app6.py line 247). -/
def talentDensity (rows : List Row) : List (String × ℚ) :=
  ((deptList rows).map fun d => (d, deptDensity rows d)).mergeSort
    fun a b => decide (b.2 ≤ a.2)

/-! ## Department dispersion (src/app6.py line 234)

`df.groupby(부서)[총점].std()` uses the pandas default ddof = 1 (sample
standard deviation, divisor n - 1) and returns NaN for a single-row group.
The standard deviation itself is an irrational square root, so the embedding
tracks its square (the sample variance), which is an exact rational; the
square root is strictly monotone on nonnegative reals, so sorting by the
square is sorting by the standard deviation, and NaN is NaN either way. -/

/-- Squared sample standard deviation (sample variance, ddof = 1) of a list,
`none` standing for the NaN that pandas returns on groups of size at most
one. -/
def sampleVarQ (l : List ℚ) : Option ℚ :=
  if l.length ≤ 1 then none
  else some ((l.map fun x => (x - qmean l) ^ 2).sum / ((l.length : ℚ) - 1))

/-- Comparator used by `sort_values(ascending=False)` on the dispersion
values: finite values descending, NaN (none) after every finite value
(pandas default na_position is last). -/
def stdGE : Option ℚ → Option ℚ → Bool
  | some x, some y => decide (y ≤ x)
  | some _, none => true
  | none, some _ => false
  | none, none => true

/-- Department dispersion table: per department the squared sample standard
deviation of total score (none = NaN), sorted descending with NaN last. -/
def deptStdSq (rows : List Row) : List (String × Option ℚ) :=
  ((deptList rows).map fun d =>
      (d, sampleVarQ ((rows.filter fun r => r.dept == d).map Row.total))).mergeSort
    fun a b => stdGE a.2 b.2

/-! ## Column presence and per-step degradation

The uploaded frame either has an optional column or not; presence is a
table-level fact.  The source guards only `전년도총점 in df.columns`
(src/app6.py lines 32, 110, 152, 210, 222): the year-over-year steps fall
back to a warning/info notice when it is absent.  Every other optional
column (종합등급, 역량점수, 성과점수, 근무기간) is accessed unguarded
(src/app6.py lines 35, 207, 246, 263), which raises a KeyError on a frame
missing it. -/

/-- Outcome of one derived-metric step on an upload. -/
inductive StepResult (α : Type) where
  | ok (val : α)
  | unavailable
  | keyError
deriving DecidableEq, Repr

/-- An upload: which optional numeric/grade columns are present, plus the
normalized rows (a row field of an absent column is irrelevant to every
step that runs). -/
structure UploadTable where
  hasPrior : Bool
  hasGrade : Bool
  hasComp : Bool
  hasPerf : Bool
  hasTenure : Bool
  rows : List Row
deriving DecidableEq, Repr

/-- Year-over-year delta metrics (tab3/tab6, src/app6.py lines 110 and 152):
guarded by the presence check on 전년도총점, otherwise the section shows a
warning instead of computing. -/
def growthMetricsStep (t : UploadTable) : StepResult (List ℚ) :=
  if t.hasPrior then .ok (t.rows.map scoreDelta) else .unavailable

/-- Shock-drop step (tab7, src/app6.py lines 210-212 and 222-227): guarded on
전년도총점; the else branch shows an info notice. -/
def shockDropStep (t : UploadTable) : StepResult (List Row) :=
  if t.hasPrior then .ok (warningDrop t.rows) else .unavailable

/-- Potential-risk step (src/app6.py line 207): reads 역량점수 and 성과점수
with no presence check, so a frame missing either raises KeyError. -/
def potentialRiskStep (t : UploadTable) : StepResult (List Row) :=
  if t.hasComp && t.hasPerf then
    .ok (t.rows.filter fun r =>
      decide (qmean (t.rows.map Row.comp) < r.comp) &&
      decide (r.perf < qmean (t.rows.map Row.perf)))
  else .keyError

/-- Talent-density step (src/app6.py line 246): reads 종합등급 with no
presence check, so a frame missing it raises KeyError. -/
def talentDensityStep (t : UploadTable) : StepResult (List (String × ℚ)) :=
  if t.hasGrade then .ok (talentDensity t.rows) else .keyError

/-- Tenure step (src/app6.py lines 35 and 263): reads 근무기간 with no
presence check, so a frame missing it raises KeyError. -/
def tenurePerfStep (t : UploadTable) : StepResult (List (String × ℚ)) :=
  if t.hasTenure then .ok (tenurePerf t.rows) else .keyError

/-! ## Sample data used by concrete instances -/

/-- A generic sample row. -/
def sampleRow : Row :=
  { empId := "1001", name := "김하늘", dept := "영업", rank := "과장", grade := "A",
    perf := 82, comp := 78, total := 80, tenure := 6, prior := 75 }

/-- An upload missing only the 종합등급 (grade) column. -/
def tableNoGrade : UploadTable :=
  { hasPrior := true, hasGrade := false, hasComp := true, hasPerf := true,
    hasTenure := true, rows := [sampleRow] }

/-- An upload missing only the 전년도총점 (prior-year) column. -/
def tableNoPrior : UploadTable :=
  { hasPrior := false, hasGrade := true, hasComp := true, hasPerf := true,
    hasTenure := true, rows := [sampleRow] }

/-! ## Simple evaluation lemmas -/

theorem replaceInfZero_fin (q : ℚ) : replaceInfZero (FV.fin q) = FV.fin q := rfl

theorem replaceInfZero_nan : replaceInfZero FV.nan = FV.nan := rfl

theorem fillna0_fin (q : ℚ) : fillna0 (FV.fin q) = FV.fin q := rfl

theorem fillna0_inf : fillna0 FV.inf = FV.inf := rfl

theorem fillna0_neginf : fillna0 FV.neginf = FV.neginf := rfl

/-! ## C1: growth percent -/

/-- C1 (counterexample).  The claim asserts the growth percent is never left
as NaN when the prior-year score is 0, yet a row with prior = 0 and total = 0
produces 0/0 = NaN, which `.replace([np.inf, -np.inf], 0)` does not touch. -/
theorem growthPercent_nan_at_zero_zero :
    growthPercent 0 0 = FV.nan ∧ FV.nan ≠ FV.fin 0 := by
  with_unfolding_all decide

/-- C1 (amended).  Growth percent equals (total - prior) / prior x 100 when
prior is nonzero; when prior is 0 and total is nonzero the infinite ratio is
replaced by 0; but when prior and total are both 0 the undefined ratio is
left as NaN (only the two infinities are replaced). -/
theorem growthPercent_amended (total prior : ℚ) :
    (prior ≠ 0 → growthPercent total prior = FV.fin ((total - prior) / prior * 100)) ∧
    (prior = 0 → total ≠ 0 → growthPercent total prior = FV.fin 0) ∧
    (prior = 0 → total = 0 → growthPercent total prior = FV.nan) := by
  refine ⟨fun hp => ?_, fun hp ht => ?_, fun hp ht => ?_⟩
  · simp [growthPercent, fvDiv, hp, fvMul100, replaceInfZero_fin]
  · subst hp
    rcases lt_trichotomy total 0 with h | h | h
    · simp [growthPercent, fvDiv, sub_zero, ht, h.not_lt, fvMul100, replaceInfZero]
    · exact absurd h ht
    · simp [growthPercent, fvDiv, sub_zero, ht, h, fvMul100, replaceInfZero]
  · subst hp; subst ht
    simp [growthPercent, fvDiv, fvMul100, replaceInfZero_nan]

/-- C1 (witness).  The spec's own example: prior = 0, total = 5 gives growth
percent 0. -/
theorem growthPercent_amended_witness : growthPercent 5 0 = FV.fin 0 :=
  (growthPercent_amended 5 0).2.1 rfl (by norm_num)

/-! ## C3: normalization -/

/-- C3 (counterexample).  A text cell spelling an infinity literal is parsed
by `pd.to_numeric` to float infinity, which `fillna(0.0)` leaves alone, so
the normalized column is not always finite. -/
theorem normalize_inf_escape :
    normalizeCell (Cell.text "inf") = FV.inf ∧ FV.inf.isFinite = false := by
  with_unfolding_all decide

/-- C3 (amended).  After normalization no cell is NaN (so none is null):
blank cells and unparseable text become exactly 0.0, and the value is finite
except when the original text parses to plus or minus infinity, which is
preserved. -/
theorem normalize_amended (c : Cell) :
    normalizeCell c ≠ FV.nan ∧
    (c = Cell.blank → normalizeCell c = FV.fin 0) ∧
    (∀ s, c = Cell.text s → parseNumericText s = none → normalizeCell c = FV.fin 0) ∧
    (toNumericCoerce c ≠ FV.inf → toNumericCoerce c ≠ FV.neginf →
      (normalizeCell c).isFinite = true) := by
  refine ⟨?_, ?_, ?_, ?_⟩
  · rcases c with _ | q | s
    · simp [normalizeCell, toNumericCoerce, fillna0]
    · simp [normalizeCell, toNumericCoerce, fillna0]
    · rcases hfv : parseNumericText s with _ | fv
      · simp [normalizeCell, toNumericCoerce, hfv, fillna0]
      · cases fv <;> simp [normalizeCell, toNumericCoerce, hfv, fillna0]
  · rintro rfl
    simp [normalizeCell, toNumericCoerce, fillna0]
  · rintro s rfl hp
    simp [normalizeCell, toNumericCoerce, hp, fillna0]
  · intro h1 h2
    rcases hfv : toNumericCoerce c with q | _ | _ | _
    · simp [normalizeCell, hfv, fillna0, FV.isFinite]
    · simp [normalizeCell, hfv, fillna0, FV.isFinite]
    · exact absurd hfv h1
    · exact absurd hfv h2

/-- C3 (witness).  An unparseable text cell normalizes to exactly 0.0. -/
theorem normalize_amended_witness : normalizeCell (Cell.text "abc") = FV.fin 0 :=
  (normalize_amended (Cell.text "abc")).2.2.1 "abc" rfl (by with_unfolding_all decide)

/-! ## C2: optional-column degradation -/

/-- C2 (counterexample).  An upload missing only the grade column does not
degrade the talent-density step to an unavailable signal: the unguarded
column access raises KeyError, crashing the step. -/
theorem optional_columns_keyError_crash :
    talentDensityStep tableNoGrade = StepResult.keyError ∧
    (StepResult.keyError : StepResult (List (String × ℚ))) ≠ StepResult.unavailable := by
  with_unfolding_all decide

/-- C2 (amended).  Only the prior-year column is guarded: when it is absent
the year-over-year steps degrade to an explicit unavailable signal and the
other steps still compute; but when the grade, competency, performance or
tenure column is absent, the dependent step crashes with a KeyError instead
of degrading. -/
theorem optional_columns_amended (t : UploadTable) :
    (t.hasPrior = false → growthMetricsStep t = .unavailable ∧ shockDropStep t = .unavailable) ∧
    (t.hasPrior = true → growthMetricsStep t = .ok (t.rows.map scoreDelta) ∧
      shockDropStep t = .ok (warningDrop t.rows)) ∧
    (t.hasGrade = false → talentDensityStep t = .keyError) ∧
    (t.hasGrade = true → talentDensityStep t = .ok (talentDensity t.rows)) ∧
    ((t.hasComp = false ∨ t.hasPerf = false) → potentialRiskStep t = .keyError) ∧
    (t.hasComp = true → t.hasPerf = true →
      potentialRiskStep t ≠ .keyError ∧ potentialRiskStep t ≠ .unavailable) ∧
    (t.hasTenure = false → tenurePerfStep t = .keyError) ∧
    (t.hasTenure = true → tenurePerfStep t = .ok (tenurePerf t.rows)) := by
  refine ⟨fun h => ?_, fun h => ?_, fun h => ?_, fun h => ?_, fun h => ?_,
    fun h1 h2 => ?_, fun h => ?_, fun h => ?_⟩
  · exact ⟨by simp [growthMetricsStep, h], by simp [shockDropStep, h]⟩
  · exact ⟨by simp [growthMetricsStep, h], by simp [shockDropStep, h]⟩
  · simp [talentDensityStep, h]
  · simp [talentDensityStep, h]
  · rcases h with h | h <;> simp [potentialRiskStep, h]
  · simp [potentialRiskStep, h1, h2]
  · simp [tenurePerfStep, h]
  · simp [tenurePerfStep, h]

/-- C2 (witness).  On an upload missing only the prior-year column the growth
step reports unavailable while the tenure step still computes. -/
theorem optional_columns_amended_witness :
    growthMetricsStep tableNoPrior = StepResult.unavailable ∧
    tenurePerfStep tableNoPrior = StepResult.ok (tenurePerf tableNoPrior.rows) :=
  ⟨((optional_columns_amended tableNoPrior).1 rfl).1,
    (optional_columns_amended tableNoPrior).2.2.2.2.2.2.2 rfl⟩

/-! ## Helper lemmas: grouped means and sorting -/

theorem isEmpty_eq_of_length_eq {α β : Type} {l1 : List α} {l2 : List β}
    (h : l1.length = l2.length) : l1.isEmpty = l2.isEmpty := by
  cases l1 <;> cases l2 <;> simp_all

theorem qmean_perm {l1 l2 : List ℚ} (h : l1.Perm l2) : qmean l1 = qmean l2 := by
  unfold qmean
  rw [h.sum_eq, h.length_eq]

theorem groupEntry_perm (key : Row → Option String) {l1 l2 : List Row}
    (h : l1.Perm l2) (k : String) :
    groupEntry key l1 k = groupEntry key l2 k := by
  simp only [groupEntry]
  have hg := h.filter fun r => key r == some k
  rw [isEmpty_eq_of_length_eq hg.length_eq, qmean_perm (hg.map Row.total)]

theorem groupEntry_fst {key : Row → Option String} {rows : List Row}
    {k : String} {e : String × ℚ} (h : groupEntry key rows k = some e) :
    e.1 = k := by
  simp only [groupEntry] at h
  by_cases hg : (rows.filter fun r => key r == some k).isEmpty
  · rw [if_pos hg] at h
    cases h
  · rw [if_neg hg] at h
    cases h
    rfl

theorem ogm_perm (keys : List String) (key : Row → Option String)
    {l1 l2 : List Row} (h : l1.Perm l2) :
    orderedGroupMean keys key l1 = orderedGroupMean keys key l2 :=
  List.filterMap_congr fun k _ => groupEntry_perm key h k

theorem ogm_fst_sublist (keys : List String) (key : Row → Option String)
    (rows : List Row) :
    ((orderedGroupMean keys key rows).map Prod.fst).Sublist keys := by
  induction keys with
  | nil => simp [orderedGroupMean]
  | cons k ks ih =>
    simp only [orderedGroupMean, List.filterMap_cons] at ih ⊢
    cases he : groupEntry key rows k with
    | none => exact ih.cons k
    | some e =>
      simp only [List.map_cons]
      rw [groupEntry_fst he]
      exact ih.cons₂ k

theorem ogm_filter_eq (keys : List String) (key : Row → Option String)
    (rows : List Row) (p : Row → Bool)
    (hp : ∀ r, p r = false → ∀ k ∈ keys, (key r == some k) = false) :
    orderedGroupMean keys key (rows.filter p) = orderedGroupMean keys key rows := by
  refine List.filterMap_congr fun k hk => ?_
  simp only [groupEntry]
  have hfil : (rows.filter p).filter (fun r => key r == some k) =
      rows.filter fun r => key r == some k := by
    rw [List.filter_filter]
    refine List.filter_congr fun r _ => ?_
    cases hpr : p r
    · rw [hp r hpr k hk, Bool.false_and]
    · rw [Bool.and_true]
  rw [hfil]

theorem pairwise_mergeSort_le {α : Type} (f : α → ℚ) (l : List α) :
    (l.mergeSort fun a b => decide (f a ≤ f b)).Pairwise fun a b => f a ≤ f b := by
  have h := @List.sorted_mergeSort α (fun a b => decide (f a ≤ f b))
    (fun a b c hab hbc =>
      decide_eq_true ((of_decide_eq_true hab).trans (of_decide_eq_true hbc)))
    (fun a b => by
      rcases le_total (f a) (f b) with h | h <;> simp [h]) l
  exact h.imp fun hab => of_decide_eq_true hab

theorem pairwise_mergeSort_ge {α : Type} (f : α → ℚ) (l : List α) :
    (l.mergeSort fun a b => decide (f b ≤ f a)).Pairwise fun a b => f b ≤ f a := by
  have h := @List.sorted_mergeSort α (fun a b => decide (f b ≤ f a))
    (fun a b c hab hbc =>
      decide_eq_true ((of_decide_eq_true hbc).trans (of_decide_eq_true hab)))
    (fun a b => by
      rcases le_total (f b) (f a) with h | h <;> simp [h]) l
  exact h.imp fun hab => of_decide_eq_true hab

/-! ## C4: top-decile selection -/

/-- A 100-row table with total scores 1..100. -/
def table100 : List Row :=
  (List.range 100).map fun i =>
    { empId := "", name := "", dept := "", rank := "", grade := "",
      perf := 0, comp := 0, total := (i : ℚ) + 1, tenure := 0, prior := 0 }

/-- C4.  The 90th-percentile threshold uses linear interpolation between
order statistics: on total scores 1..100 it is exactly 90.1 and exactly 10
rows qualify; in general the Core Talent selection consists of exactly the
rows with total score at or above the threshold, sorted descending by total
score. -/
theorem topDecile_selection :
    starThreshold table100 = 901 / 10 ∧
    (stars table100).length = 10 ∧
    (∀ rows : List Row, ∀ r : Row,
      r ∈ stars rows ↔ r ∈ rows ∧ starThreshold rows ≤ r.total) ∧
    (∀ rows : List Row, (stars rows).Pairwise fun a b => b.total ≤ a.total) := by
  refine ⟨?_, ?_, ?_, ?_⟩
  · with_unfolding_all rfl
  · with_unfolding_all rfl
  · intro rows r
    simp only [stars, List.mem_mergeSort, List.mem_filter, decide_eq_true_eq]
  · intro rows
    exact pairwise_mergeSort_ge Row.total _

/-! ## C5: enumeration-ordered aggregations -/

/-- Second sample row, with a different rank, for permutation instances. -/
def sampleRow2 : Row :=
  { empId := "1002", name := "이준", dept := "재무", rank := "대리", grade := "B",
    perf := 61, comp := 66, total := 63, tenure := 3, prior := 60 }

/-- C5.  The rank aggregation and the grade counts are invariant under any
permutation of the input rows; the rank aggregation emits its groups as a
subsequence of the fixed rank enumeration and the grade counts emit exactly
the fixed grade enumeration in order; rows whose rank is outside the
enumeration are dropped from the rank view. -/
theorem ordered_aggregations :
    (∀ l1 l2 : List Row, l1.Perm l2 →
      rankAvg l1 = rankAvg l2 ∧ gradeCounts l1 = gradeCounts l2) ∧
    (∀ rows : List Row, ((rankAvg rows).map Prod.fst).Sublist rank_order) ∧
    (∀ rows : List Row, (gradeCounts rows).map Prod.fst = grade_order) ∧
    (∀ rows : List Row,
      rankAvg rows = rankAvg (rows.filter fun r => decide (r.rank ∈ rank_order))) := by
  refine ⟨?_, ?_, ?_, ?_⟩
  · intro l1 l2 h
    refine ⟨ogm_perm _ _ h, ?_⟩
    simp only [gradeCounts]
    refine List.map_congr_left fun g _ => ?_
    rw [(h.filter fun r => r.grade == g).length_eq]
  · intro rows
    exact ogm_fst_sublist _ _ _
  · intro rows
    simp [gradeCounts, grade_order]
  · intro rows
    refine (ogm_filter_eq _ _ rows _ fun r hpr k hk => ?_).symm
    have hr : r.rank ∉ rank_order := by
      simpa using hpr
    rw [beq_eq_false_iff_ne]
    intro hc
    injection hc with h
    exact hr (h.symm ▸ hk)

/-- C5 (witness).  Swapping two concrete rows leaves the rank aggregation
unchanged. -/
theorem ordered_aggregations_witness :
    rankAvg [sampleRow, sampleRow2] = rankAvg [sampleRow2, sampleRow] :=
  (ordered_aggregations.1 _ _ (List.Perm.swap sampleRow2 sampleRow [])).1

/-! ## C6: tenure bucketing -/

/-- C6.  Tenure buckets are the right-closed intervals of
`pd.cut(..., bins=[0,2,5,10,20,100])`: tenure 2.0 is still Entry, tenure
2.01 is Junior; a tenure gets a bucket exactly when it lies in (0, 100];
the per-bucket means are emitted as a subsequence of the fixed bucket
order. -/
theorem tenure_bucketing :
    tenureBucket 2 = some "1-2년(신입)" ∧
    tenureBucket (201 / 100) = some "3-5년(주니어)" ∧
    (∀ t : ℚ, (tenureBucket t).isSome = true ↔ 0 < t ∧ t ≤ 100) ∧
    (∀ t : ℚ, tenureBucket t = some "3-5년(주니어)" ↔ 2 < t ∧ t ≤ 5) ∧
    (∀ rows : List Row, ((tenurePerf rows).map Prod.fst).Sublist tenureLabels) := by
  refine ⟨?_, ?_, ?_, ?_, ?_⟩
  · with_unfolding_all rfl
  · with_unfolding_all rfl
  · intro t
    unfold tenureBucket
    split_ifs with h1 h2 h3 h4 h5
    · exact iff_of_true rfl ⟨h1.1, h1.2.trans (by norm_num)⟩
    · exact iff_of_true rfl ⟨lt_trans (by norm_num) h2.1, h2.2.trans (by norm_num)⟩
    · exact iff_of_true rfl ⟨lt_trans (by norm_num) h3.1, h3.2.trans (by norm_num)⟩
    · exact iff_of_true rfl ⟨lt_trans (by norm_num) h4.1, h4.2.trans (by norm_num)⟩
    · exact iff_of_true rfl ⟨lt_trans (by norm_num) h5.1, h5.2⟩
    · refine iff_of_false (by simp) ?_
      push_neg at h1 h2 h3 h4 h5
      rintro ⟨h0, h100⟩
      linarith [h1 h0, h2 (h1 h0), h3 (h2 (h1 h0)), h4 (h3 (h2 (h1 h0))),
        h5 (h4 (h3 (h2 (h1 h0))))]
  · intro t
    unfold tenureBucket
    split_ifs with h1 h2 h3 h4 h5
    · refine iff_of_false (by simp) ?_
      rintro ⟨hgt, _⟩
      linarith [h1.2]
    · exact iff_of_true rfl h2
    · refine iff_of_false (by simp) ?_
      rintro ⟨_, hle⟩
      linarith [h3.1]
    · refine iff_of_false (by simp) ?_
      rintro ⟨_, hle⟩
      linarith [h4.1]
    · refine iff_of_false (by simp) ?_
      rintro ⟨_, hle⟩
      linarith [h5.1]
    · exact iff_of_false (by simp) h2
  · intro rows
    exact ogm_fst_sublist _ _ _

/-! ## C7: shock-drop detection -/

/-- A row whose year-over-year delta is exactly -10. -/
def rowDropA : Row :=
  { empId := "2001", name := "박서연", dept := "영업", rank := "차장", grade := "B",
    perf := 70, comp := 72, total := 70, tenure := 8, prior := 80 }

/-- A row whose year-over-year delta is -9.99. -/
def rowDropB : Row :=
  { empId := "2002", name := "최민수", dept := "영업", rank := "사원", grade := "C",
    perf := 70, comp := 71, total := 7001 / 100, tenure := 2, prior := 80 }

/-- C7.  The shock-drop list contains exactly the rows with delta at most
-10 (the boundary is inclusive: a delta of exactly -10 is selected, -9.99 is
not), sorted ascending by delta. -/
theorem shock_drop_detection :
    (∀ rows : List Row, ∀ r : Row,
      r ∈ warningDrop rows ↔ r ∈ rows ∧ scoreDelta r ≤ -10) ∧
    (∀ rows : List Row,
      (warningDrop rows).Pairwise fun a b => scoreDelta a ≤ scoreDelta b) ∧
    scoreDelta rowDropA = -10 ∧
    scoreDelta rowDropB = -(999 / 100) ∧
    warningDrop [rowDropA, rowDropB] = [rowDropA] := by
  refine ⟨?_, ?_, ?_, ?_, ?_⟩
  · intro rows r
    simp only [warningDrop, List.mem_mergeSort, List.mem_filter, decide_eq_true_eq]
  · intro rows
    exact pairwise_mergeSort_le scoreDelta _
  · with_unfolding_all rfl
  · with_unfolding_all rfl
  · with_unfolding_all rfl

/-! ## C8: talent density -/

/-- A department row holding no S or A grade. -/
def rowNoStar : Row :=
  { empId := "3001", name := "정다은", dept := "인사", rank := "사원", grade := "B",
    perf := 55, comp := 58, total := 56, tenure := 1, prior := 50 }

/-- C8.  Every department appearing in the table appears in the
talent-density output with value (S/A rows) / (department rows) x 100; a
department with no S/A rows gets exactly 0, never a missing value; the
output is sorted descending by the percentage. -/
theorem talent_density_claim :
    (∀ rows : List Row, ∀ d : String, d ∈ rows.map Row.dept →
      (d, ((rows.filter fun r => r.dept == d && isStarGrade r).length : ℚ) /
            ((rows.filter fun r => r.dept == d).length : ℚ) * 100) ∈
        talentDensity rows) ∧
    (∀ rows : List Row, ∀ d : String, d ∈ rows.map Row.dept →
      (∀ r ∈ rows, r.dept = d → isStarGrade r = false) →
      (d, (0 : ℚ)) ∈ talentDensity rows) ∧
    (∀ rows : List Row, (talentDensity rows).Pairwise fun a b => b.2 ≤ a.2) := by
  have hmem : ∀ rows : List Row, ∀ d : String, d ∈ rows.map Row.dept →
      (d, deptDensity rows d) ∈ talentDensity rows := by
    intro rows d hd
    have h1 : d ∈ deptList rows := List.mem_dedup.mpr hd
    have h2 := List.mem_map_of_mem (fun d2 => (d2, deptDensity rows d2)) h1
    simpa [talentDensity, List.mem_mergeSort] using h2
  refine ⟨?_, ?_, ?_⟩
  · intro rows d hd
    have he : deptDensity rows d =
        ((rows.filter fun r => r.dept == d && isStarGrade r).length : ℚ) /
          ((rows.filter fun r => r.dept == d).length : ℚ) * 100 := by
      simp only [deptDensity]
      by_cases hs : (rows.filter fun r => r.dept == d && isStarGrade r).length = 0
      · rw [if_pos hs, hs]
        simp
      · rw [if_neg hs]
    exact he ▸ hmem rows d hd
  · intro rows d hd hall
    have hs : (rows.filter fun r => r.dept == d && isStarGrade r) = [] := by
      rw [List.filter_eq_nil_iff]
      intro r hr
      cases hdep : (r.dept == d) with
      | false => simp [hdep]
      | true => simp [hdep, hall r hr (by simpa using hdep)]
    have he : deptDensity rows d = 0 := by
      simp only [deptDensity]
      rw [hs]
      simp
    exact he ▸ hmem rows d hd
  · intro rows
    exact pairwise_mergeSort_ge Prod.snd _

/-- C8 (witness).  A one-row department with grade B has density exactly 0
in the output. -/
theorem talent_density_claim_witness :
    ("인사", (0 : ℚ)) ∈ talentDensity [rowNoStar] :=
  talent_density_claim.2.1 [rowNoStar] "인사"
    (List.mem_map_of_mem Row.dept (List.mem_singleton.mpr rfl))
    (fun r hr _ => by
      cases List.mem_singleton.mp hr
      with_unfolding_all rfl)

/-! ## C9: rows with nonpositive tenure get no bucket -/

theorem tenureBucket_nonpos {t : ℚ} (ht : t ≤ 0) : tenureBucket t = none := by
  unfold tenureBucket
  split_ifs with h1 h2 h3 h4 h5
  · exact absurd h1.1 (not_lt.mpr ht)
  · exact absurd (lt_trans (by norm_num) h2.1) (not_lt.mpr ht)
  · exact absurd (lt_trans (by norm_num) h3.1) (not_lt.mpr ht)
  · exact absurd (lt_trans (by norm_num) h4.1) (not_lt.mpr ht)
  · exact absurd (lt_trans (by norm_num) h5.1) (not_lt.mpr ht)
  · rfl

/-- C9.  A nonpositive tenure (in particular the 0.0 that a missing or
unparseable tenure cell normalizes to) gets no bucket, and such rows are
silently excluded from the per-bucket mean: the tenure aggregation over the
table equals the aggregation over only the rows with positive tenure. -/
theorem tenure_exclusion :
    (∀ t : ℚ, t ≤ 0 → tenureBucket t = none) ∧
    (∀ rows : List Row,
      tenurePerf rows = tenurePerf (rows.filter fun r => decide (0 < r.tenure))) ∧
    normalizeCell Cell.blank = FV.fin 0 := by
  refine ⟨fun t ht => tenureBucket_nonpos ht, ?_, rfl⟩
  intro rows
  refine (ogm_filter_eq _ _ rows _ fun r hpr lb _ => ?_).symm
  have ht : r.tenure ≤ 0 := not_lt.mp (decide_eq_false_iff_not.mp hpr)
  rw [tenureBucket_nonpos ht]
  rfl

/-- C9 (witness).  Tenure exactly 0 gets no bucket. -/
theorem tenure_exclusion_witness : tenureBucket 0 = none :=
  tenure_exclusion.1 0 le_rfl

/-! ## C10: department dispersion -/

/-- First of two rows of department A팀 (total scores 4 and 8). -/
def rowVarA1 : Row :=
  { empId := "4001", name := "한결", dept := "A팀", rank := "과장", grade := "B",
    perf := 0, comp := 0, total := 4, tenure := 5, prior := 0 }

/-- Second row of department A팀. -/
def rowVarA2 : Row :=
  { empId := "4002", name := "서진", dept := "A팀", rank := "대리", grade := "B",
    perf := 0, comp := 0, total := 8, tenure := 4, prior := 0 }

/-- The single row of department B팀. -/
def rowVarB1 : Row :=
  { empId := "4003", name := "지우", dept := "B팀", rank := "사원", grade := "B",
    perf := 0, comp := 0, total := 7, tenure := 3, prior := 0 }

theorem stdGE_trans :
    ∀ x y z : Option ℚ, stdGE x y = true → stdGE y z = true → stdGE x z = true := by
  intro x y z h1 h2
  rcases x with _ | a <;> rcases y with _ | b <;> rcases z with _ | c <;>
    simp [stdGE] at h1 h2 ⊢
  exact h2.trans h1

theorem stdGE_total : ∀ x y : Option ℚ, (stdGE x y || stdGE y x) = true := by
  intro x y
  rcases x with _ | a <;> rcases y with _ | b <;> simp [stdGE]
  exact le_total b a

/-- C10.  Department dispersion is the sample standard deviation (tracked
here by its square, the ddof = 1 variance with divisor n - 1, since sorting
by the square equals sorting by the square root): the two-row department
{4, 8} yields variance 8 (sample, not the population value 4), the one-row
department yields NaN (none), and the descending sort places every NaN
after every finite value. -/
theorem dept_dispersion :
    deptStdSq [rowVarA1, rowVarA2, rowVarB1] = [("A팀", some 8), ("B팀", none)] ∧
    (∀ l : List ℚ, l.length ≤ 1 → sampleVarQ l = none) ∧
    (∀ l : List ℚ, 2 ≤ l.length →
      sampleVarQ l =
        some ((l.map fun x => (x - qmean l) ^ 2).sum / ((l.length : ℚ) - 1))) ∧
    (∀ rows : List Row, (deptStdSq rows).Pairwise fun a b => stdGE a.2 b.2 = true) := by
  refine ⟨?_, ?_, ?_, ?_⟩
  · with_unfolding_all rfl
  · intro l h
    simp only [sampleVarQ]
    rw [if_pos h]
  · intro l h
    simp only [sampleVarQ]
    rw [if_neg (by omega)]
  · intro rows
    exact @List.sorted_mergeSort (String × Option ℚ) (fun a b => stdGE a.2 b.2)
      (fun a b c h1 h2 => stdGE_trans a.2 b.2 c.2 h1 h2)
      (fun a b => stdGE_total a.2 b.2) _

/-- C10 (witness).  A one-element score list has NaN dispersion. -/
theorem dept_dispersion_witness : sampleVarQ [7] = none :=
  dept_dispersion.2.1 [(7 : ℚ)] (by decide)

end App6
